import Mathlib

/-!
# Verification of the position-heartbeat core (Bijaz)

Shallow embedding of the heartbeat trigger evaluator
(`src/core/heartbeat_triggers.ts`), the heartbeat journal
(`src/memory/position_heartbeat_journal.ts`), and — where the repository
source is absent and only tests/design documents remain — spec-modelled
stand-ins for the advisor action validator and the decision-artifact store.

JavaScript numbers are modelled by `JsNum`: a rational together with the
three non-finite values `NaN`, `+∞`, `-∞`.  The arithmetic and comparison
operations below follow IEEE-754 double semantics for those operations the
source actually performs (signed zeros are collapsed to `0`; every division
in the source is guarded to a strictly positive finite divisor, so the
collapse is unobservable).  Timestamps (`nowMs`, cooldown entries,
`lastLlmCheckTimestamp`) are milliseconds-since-epoch and are modelled as
integers.
-/

/-- A JavaScript number: a finite rational, `NaN`, `+Infinity` or `-Infinity`. -/
inductive JsNum where
  | num (q : ℚ)
  | nan
  | inf
  | ninf
deriving DecidableEq, Repr

/-- Rational subtraction in a kernel-reducible form (the field operations on
`ℚ` are marked irreducible upstream); agrees with `a - b`, see `qsub_eq`. -/
def qsub (a b : ℚ) : ℚ := Rat.divInt (a.num * b.den - b.num * a.den) (a.den * b.den)

/-- Rational multiplication in a kernel-reducible form; agrees with `a * b`,
see `qmul_eq`. -/
def qmul (a b : ℚ) : ℚ := Rat.divInt (a.num * b.num) (a.den * b.den)

/-- Rational division in a kernel-reducible form; agrees with `a / b`, see
`qdiv_eq`. -/
def qdiv (a b : ℚ) : ℚ := Rat.divInt (a.num * b.den) (b.num * a.den)

namespace JsNum

/-- `Number.isFinite`. -/
def isFinite : JsNum → Bool
  | num _ => true
  | _ => false

/-- JS subtraction `a - b`. -/
def sub : JsNum → JsNum → JsNum
  | nan, _ => nan
  | _, nan => nan
  | num a, num b => num (qsub a b)
  | num _, inf => ninf
  | num _, ninf => inf
  | inf, num _ => inf
  | ninf, num _ => ninf
  | inf, ninf => inf
  | ninf, inf => ninf
  | inf, inf => nan
  | ninf, ninf => nan

/-- `Math.abs`. -/
def abs : JsNum → JsNum
  | num a => num |a|
  | nan => nan
  | inf => inf
  | ninf => inf

/-- JS multiplication `a * b`. -/
def mul : JsNum → JsNum → JsNum
  | nan, _ => nan
  | _, nan => nan
  | num a, num b => num (qmul a b)
  | inf, num b => if b = 0 then nan else if 0 < b then inf else ninf
  | num a, inf => if a = 0 then nan else if 0 < a then inf else ninf
  | ninf, num b => if b = 0 then nan else if 0 < b then ninf else inf
  | num a, ninf => if a = 0 then nan else if 0 < a then ninf else inf
  | inf, inf => inf
  | ninf, ninf => inf
  | inf, ninf => ninf
  | ninf, inf => ninf

/-- JS division `a / b` (signed zeros collapsed: `x / 0` with `x > 0` gives `+∞`). -/
def div : JsNum → JsNum → JsNum
  | nan, _ => nan
  | _, nan => nan
  | num a, num b =>
      if b = 0 then (if a = 0 then nan else if 0 < a then inf else ninf)
      else num (qdiv a b)
  | inf, num b => if b < 0 then ninf else inf
  | ninf, num b => if b < 0 then inf else ninf
  | num _, inf => num 0
  | num _, ninf => num 0
  | inf, inf => nan
  | inf, ninf => nan
  | ninf, inf => nan
  | ninf, ninf => nan

/-- JS comparison `a <= b` (`false` whenever either side is `NaN`). -/
def le : JsNum → JsNum → Bool
  | nan, _ => false
  | _, nan => false
  | ninf, _ => true
  | _, ninf => false
  | _, inf => true
  | inf, _ => false
  | num a, num b => decide (a ≤ b)

/-- JS comparison `a < b` (`false` whenever either side is `NaN`). -/
def lt : JsNum → JsNum → Bool
  | nan, _ => false
  | _, nan => false
  | ninf, ninf => false
  | ninf, _ => true
  | _, ninf => false
  | inf, _ => false
  | _, inf => true
  | num a, num b => decide (a < b)

/-- JS comparison `a >= b`. -/
def ge (a b : JsNum) : Bool := le b a

/-- Truncation toward zero of a rational (`Math.trunc` on the finite case). -/
def truncQ (q : ℚ) : ℤ := if q < 0 then ⌈q⌉ else ⌊q⌋

end JsNum

/-- `'long' | 'short'` from `src/core/heartbeat_triggers.ts`. -/
inductive PositionSide where
  | long
  | short
deriving DecidableEq, Repr

/-- `PositionTick` from `src/core/heartbeat_triggers.ts`. -/
structure PositionTick where
  timestamp : JsNum
  symbol : String
  markPrice : JsNum
  entryPrice : JsNum
  unrealizedPnl : JsNum
  pnlPctOfEquity : JsNum
  accountEquity : JsNum
  liquidationPrice : JsNum
  distToLiquidationPct : JsNum
  fundingRate : JsNum
  stopLossPrice : Option JsNum
  takeProfitPrice : Option JsNum
  positionSide : PositionSide
  positionSize : JsNum
deriving DecidableEq, Repr

/-- `HeartbeatTriggerName` from `src/core/heartbeat_triggers.ts`. -/
inductive HeartbeatTriggerName where
  | pnl_shift
  | approaching_stop
  | approaching_tp
  | liquidation_proximity
  | funding_flip
  | funding_spike
  | volatility_spike
  | time_ceiling
  | stop_missing
  | position_opened
  | position_closed
deriving DecidableEq, Repr

/-- `TriggerState` from `src/core/heartbeat_triggers.ts`.  The
`triggerCooldowns` partial record (trigger name → last fire timestamp in ms)
is modelled as a function into `Option ℤ`. -/
structure TriggerState where
  lastLlmCheckTimestamp : ℤ
  lastLlmPnlPctOfEquity : JsNum
  lastLlmMarkPrice : JsNum
  lastFundingRateSign : JsNum
  triggerCooldowns : HeartbeatTriggerName → Option ℤ

/-- `HeartbeatTriggerConfig` from `src/core/heartbeat_triggers.ts`. -/
structure HeartbeatTriggerConfig where
  pnlShiftPct : JsNum
  approachingStopPct : JsNum
  approachingTpPct : JsNum
  liquidationProximityPct : JsNum
  fundingSpike : JsNum
  volatilitySpikePct : JsNum
  volatilitySpikeWindowTicks : JsNum
  timeCeilingMinutes : JsNum
  triggerCooldownSeconds : JsNum
deriving DecidableEq, Repr

/-- The optional `extra` flags of `evaluateHeartbeatTriggers` (truthiness of
`extra?.positionOpened` / `extra?.positionClosed` collapsed to `Bool`). -/
structure ExtraFlags where
  positionOpened : Bool
  positionClosed : Bool
deriving DecidableEq, Repr

open JsNum HeartbeatTriggerName

/-- `clampInt` from `src/core/heartbeat_triggers.ts`:
`Number.isFinite(n) ? Math.min(max, Math.max(min, Math.trunc(n))) : min`. -/
def clampInt (n : JsNum) (lo hi : ℤ) : ℤ :=
  match n with
  | .num q => min hi (max lo (truncQ q))
  | _ => lo

/-- `sign` from `src/core/heartbeat_triggers.ts`: `0` on non-finite or zero
input, otherwise `±1`. -/
def signOf : JsNum → ℤ
  | .num a => if a = 0 then 0 else if 0 < a then 1 else -1
  | _ => 0

/-- `pctDistance` from `src/core/heartbeat_triggers.ts`:
`Infinity` when `a` is non-finite or zero or `b` is non-finite, otherwise
`(|a - b| / |a|) * 100`. -/
def pctDistance (a b : JsNum) : JsNum :=
  match a, b with
  | .num qa, .num qb => if qa = 0 then .inf else .num (qmul (qdiv |qsub qa qb| |qa|) 100)
  | _, _ => .inf

/-- `DEFAULT_COOLDOWNS_MS` from `src/core/heartbeat_triggers.ts`.  The TS
record is total over `HeartbeatTriggerName`, so the
`DEFAULT_COOLDOWNS_MS[name] ?? defaultCooldownMs` fallback inside
`evaluateHeartbeatTriggers` can never take its right branch; the per-name
cooldown is therefore exactly this table. -/
def defaultCooldownsMs : HeartbeatTriggerName → ℤ
  | pnl_shift => 3 * 60000
  | approaching_stop => 2 * 60000
  | approaching_tp => 2 * 60000
  | liquidation_proximity => 60000
  | funding_flip => 10 * 60000
  | funding_spike => 10 * 60000
  | volatility_spike => 3 * 60000
  | time_ceiling => 0
  | stop_missing => 60000
  | position_opened => 0
  | position_closed => 0

/-- The generic fallback cooldown `clampInt(cfg.triggerCooldownSeconds, 0, 86_400) * 1000`
computed by `evaluateHeartbeatTriggers`.  Unreachable as a cooldown value
(see `defaultCooldownsMs`) but kept for the clamping claims. -/
def defaultCooldownMsOf (cfg : HeartbeatTriggerConfig) : ℤ :=
  clampInt cfg.triggerCooldownSeconds 0 86400 * 1000

/-- `defaultTriggerState` from `src/core/heartbeat_triggers.ts` (the `_nowMs`
argument is ignored by the source). -/
def defaultTriggerState (_nowMs : ℤ) : TriggerState :=
  { lastLlmCheckTimestamp := 0
    lastLlmPnlPctOfEquity := .num 0
    lastLlmMarkPrice := .num 0
    lastFundingRateSign := .num 0
    triggerCooldowns := fun _ => none }

/-- `canFire` from `src/core/heartbeat_triggers.ts`:
`cooldownMs <= 0 ? true : nowMs - (state.triggerCooldowns?.[name] ?? 0) >= cooldownMs`. -/
def canFire (name : HeartbeatTriggerName) (nowMs : ℤ)
    (cds : HeartbeatTriggerName → Option ℤ) : Bool :=
  let cd := defaultCooldownsMs name
  if cd ≤ 0 then true else decide (cd ≤ nowMs - (cds name).getD 0)

/-- One `record(name, detail)` call from `evaluateHeartbeatTriggers`: if the
cooldown admits it, push the name and stamp its cooldown entry with `nowMs`.
The human-readable `detail` strings (built with `toFixed`) carry no decision
content and are elided; `fired` is modelled as the list of names in push
order. -/
def recordStep (nowMs : ℤ) (name : HeartbeatTriggerName)
    (acc : List HeartbeatTriggerName × (HeartbeatTriggerName → Option ℤ)) :
    List HeartbeatTriggerName × (HeartbeatTriggerName → Option ℤ) :=
  if canFire name nowMs acc.2 then
    (acc.1 ++ [name], fun n => if n = name then some nowMs else acc.2 n)
  else acc

/-- Run a list of `(name, condition)` checks in order, calling `recordStep`
for each check whose condition held.  This is the body of
`evaluateHeartbeatTriggers`: each guarded `record(...)` call in the source
becomes one list entry.  The conditions of the source are computed before the
corresponding `record` call and read only tick/config/extra data and the
advisor-committed `TriggerState` fields, never `triggerCooldowns` (the one
thing `record` mutates), so evaluating all of them up front against the input
state is faithful to the source's interleaving. -/
def runChecks (nowMs : ℤ) :
    List (HeartbeatTriggerName × Bool) →
    List HeartbeatTriggerName × (HeartbeatTriggerName → Option ℤ) →
    List HeartbeatTriggerName × (HeartbeatTriggerName → Option ℤ)
  | [], acc => acc
  | (name, cond) :: rest, acc =>
      runChecks nowMs rest (if cond then recordStep nowMs name acc else acc)

/-- The `volatility_spike` window: `clampInt(cfg.volatilitySpikeWindowTicks, 1, 10_000)`. -/
def volWindow (cfg : HeartbeatTriggerConfig) : ℤ :=
  clampInt cfg.volatilitySpikeWindowTicks 1 10000

/-- The `time_ceiling` threshold: `clampInt(cfg.timeCeilingMinutes, 1, 10_000) * 60_000`. -/
def ceilingMsOf (cfg : HeartbeatTriggerConfig) : ℤ :=
  clampInt cfg.timeCeilingMinutes 1 10000 * 60000

/-- The `movePct` computation of the `volatility_spike` branch:
`Number.isFinite(basePx) && basePx > 0 ? (Math.abs(tick.markPrice - basePx) / basePx) * 100 : 0`. -/
def movePctOf (mark basePx : JsNum) : JsNum :=
  match basePx with
  | .num qb => if 0 < qb then mul (div (abs (sub mark basePx)) basePx) (.num 100) else .num 0
  | _ => .num 0

/-- The `extra?.positionOpened` guard. -/
def condPositionOpened (extra : ExtraFlags) : Bool := extra.positionOpened

/-- The `extra?.positionClosed` guard. -/
def condPositionClosed (extra : ExtraFlags) : Bool := extra.positionClosed

/-- The `tick.stopLossPrice == null` guard of `stop_missing`. -/
def condStopMissing (tick : PositionTick) : Bool := tick.stopLossPrice.isNone

/-- The `pnl_shift` guard:
`Math.abs(tick.pnlPctOfEquity - state.lastLlmPnlPctOfEquity) >= Math.abs(cfg.pnlShiftPct)`. -/
def condPnlShift (tick : PositionTick) (state : TriggerState)
    (cfg : HeartbeatTriggerConfig) : Bool :=
  ge (abs (sub tick.pnlPctOfEquity state.lastLlmPnlPctOfEquity)) (abs cfg.pnlShiftPct)

/-- The `approaching_stop` guard: stop present and
`pctDistance(markPrice, stop) <= Math.abs(cfg.approachingStopPct)`. -/
def condApproachingStop (tick : PositionTick) (cfg : HeartbeatTriggerConfig) : Bool :=
  match tick.stopLossPrice with
  | some sl => le (pctDistance tick.markPrice sl) (abs cfg.approachingStopPct)
  | none => false

/-- The `approaching_tp` guard (same formula against the take-profit). -/
def condApproachingTp (tick : PositionTick) (cfg : HeartbeatTriggerConfig) : Bool :=
  match tick.takeProfitPrice with
  | some tp => le (pctDistance tick.markPrice tp) (abs cfg.approachingTpPct)
  | none => false

/-- The `liquidation_proximity` guard:
`tick.distToLiquidationPct <= Math.abs(cfg.liquidationProximityPct)`. -/
def condLiquidationProximity (tick : PositionTick) (cfg : HeartbeatTriggerConfig) : Bool :=
  le tick.distToLiquidationPct (abs cfg.liquidationProximityPct)

/-- The `funding_flip` guard: both signs nonzero and different. -/
def condFundingFlip (tick : PositionTick) (state : TriggerState) : Bool :=
  decide (signOf state.lastFundingRateSign ≠ 0) &&
  decide (signOf tick.fundingRate ≠ 0) &&
  decide (signOf tick.fundingRate ≠ signOf state.lastFundingRateSign)

/-- The `funding_spike` guard:
`Math.abs(tick.fundingRate) >= Math.abs(cfg.fundingSpike)`. -/
def condFundingSpike (tick : PositionTick) (cfg : HeartbeatTriggerConfig) : Bool :=
  ge (abs tick.fundingRate) (abs cfg.fundingSpike)

/-- The `volatility_spike` guard: buffer at least as long as the clamped
window, and the move from `buffer[buffer.length - window]` at least the
threshold.  The source reads the base tick with a non-null assertion
(`buffer[...]!`); the `none` branch is unreachable under the length guard
(proved with the clamping claims). -/
def condVolatilitySpike (tick : PositionTick) (buffer : List PositionTick)
    (cfg : HeartbeatTriggerConfig) : Bool :=
  if (volWindow cfg).toNat ≤ buffer.length then
    match buffer.get? (buffer.length - (volWindow cfg).toNat) with
    | some base => ge (movePctOf tick.markPrice base.markPrice) (abs cfg.volatilitySpikePct)
    | none => false
  else false

/-- The first `time_ceiling` branch: a prior check exists and has aged at
least `ceilingMs`. -/
def condTimeCeilingAged (nowMs : ℤ) (state : TriggerState)
    (cfg : HeartbeatTriggerConfig) : Bool :=
  decide (0 < ceilingMsOf cfg) && decide (0 < state.lastLlmCheckTimestamp) &&
  decide (ceilingMsOf cfg ≤ nowMs - state.lastLlmCheckTimestamp)

/-- The second `time_ceiling` branch: no prior check recorded
(`lastLlmCheckTimestamp === 0`). -/
def condTimeCeilingFirst (state : TriggerState) (cfg : HeartbeatTriggerConfig) : Bool :=
  decide (0 < ceilingMsOf cfg) && decide (state.lastLlmCheckTimestamp = 0)

/-- The guarded `record` calls of `evaluateHeartbeatTriggers`, in source
order, as `(name, condition)` pairs.  The two final entries are the two
mutually exclusive `time_ceiling` branches of the source (prior-check aging,
and no-prior-check). -/
def triggerChecks (nowMs : ℤ) (tick : PositionTick) (buffer : List PositionTick)
    (state : TriggerState) (cfg : HeartbeatTriggerConfig) (extra : ExtraFlags) :
    List (HeartbeatTriggerName × Bool) :=
  [ (position_opened, condPositionOpened extra),
    (position_closed, condPositionClosed extra),
    (stop_missing, condStopMissing tick),
    (pnl_shift, condPnlShift tick state cfg),
    (approaching_stop, condApproachingStop tick cfg),
    (approaching_tp, condApproachingTp tick cfg),
    (liquidation_proximity, condLiquidationProximity tick cfg),
    (funding_flip, condFundingFlip tick state),
    (funding_spike, condFundingSpike tick cfg),
    (volatility_spike, condVolatilitySpike tick buffer cfg),
    (time_ceiling, condTimeCeilingAged nowMs state cfg),
    (time_ceiling, condTimeCeilingFirst state cfg) ]

/-- Result of `evaluateHeartbeatTriggers`. -/
structure EvalResult where
  fired : List HeartbeatTriggerName
  nextState : TriggerState

/-- `evaluateHeartbeatTriggers` from `src/core/heartbeat_triggers.ts`.
In the source, `nextState` is the very `params.state` object, with its
`triggerCooldowns` entries mutated in place by `record`; here that effect is
made explicit by returning the input state with the updated cooldown map. -/
def evaluateHeartbeatTriggers (nowMs : ℤ) (tick : PositionTick)
    (buffer : List PositionTick) (state : TriggerState)
    (cfg : HeartbeatTriggerConfig) (extra : ExtraFlags) : EvalResult :=
  let final := runChecks nowMs (triggerChecks nowMs tick buffer state cfg extra)
    ([], state.triggerCooldowns)
  { fired := final.1
    nextState := { state with triggerCooldowns := final.2 } }

/-- Modelled from the spec: the `heartbeat.triggers.*` defaults of the
configuration surface (§6).  The configuration loader that supplies these
defaults is not under `src/`; the values match the spec's table and the
design document's trigger catalog. -/
def defaultHeartbeatTriggerConfig : HeartbeatTriggerConfig :=
  { pnlShiftPct := .num (mkRat 3 2)
    approachingStopPct := .num 1
    approachingTpPct := .num 1
    liquidationProximityPct := .num 5
    fundingSpike := .num (mkRat 1 10000)
    volatilitySpikePct := .num 2
    volatilitySpikeWindowTicks := .num 10
    timeCeilingMinutes := .num 15
    triggerCooldownSeconds := .num 180 }

/-- Modelled from the spec: the advisor-path state commit (§4.5 step 7) of
`src/core/position_heartbeat.ts`, which is not under `src/`.  On any advisor
outcome except `skipped` the orchestrator updates the four advisor-committed
fields of the trigger state from the advised tick
(`lastFundingRateSign ∈ {-1, 0, 1}` per the data model, hence the sign of
the tick's funding rate). -/
def commitAdvisorState (nowMs : ℤ) (tick : PositionTick) (s : TriggerState) : TriggerState :=
  { s with
    lastLlmCheckTimestamp := nowMs
    lastLlmPnlPctOfEquity := tick.pnlPctOfEquity
    lastLlmMarkPrice := tick.markPrice
    lastFundingRateSign := .num ((signOf tick.fundingRate : ℤ) : ℚ) }

/-- The advisor actions (§4.5), a closed sum per the design notes. -/
inductive AdvisorAction where
  | hold
  | tighten_stop (newStopPrice : JsNum)
  | adjust_take_profit (newTpPrice : JsNum)
  | partial_close (fractionOfPosition : JsNum)
  | close
deriving DecidableEq, Repr

/-- Modelled from the spec: `validateAction` of
`src/core/position_heartbeat.ts`, which is not under `src/` (only its unit
tests are, in the test file for position heartbeat action validation).
Follows §4.5's action validation table: `hold`/`close` always allowed;
`tighten_stop` for a long requires the new stop strictly above the current
stop (any value when none is set) and strictly below `markPrice`, mirrored
for a short; `adjust_take_profit` must stay strictly beyond `markPrice` on
the profit side; `partial_close` requires a fraction in `(0, 1)` and a
remaining size of at least the exchange minimum (`minSize`). -/
def validateAction (action : AdvisorAction) (tick : PositionTick)
    (stopLossPrice : Option JsNum) (minSize : JsNum) : Bool :=
  match action with
  | .hold => true
  | .close => true
  | .tighten_stop newStop =>
      match tick.positionSide with
      | .long =>
          (match stopLossPrice with
           | some s => lt s newStop
           | none => true) && lt newStop tick.markPrice
      | .short =>
          (match stopLossPrice with
           | some s => lt newStop s
           | none => true) && lt tick.markPrice newStop
  | .adjust_take_profit newTp =>
      match tick.positionSide with
      | .long => lt tick.markPrice newTp
      | .short => lt newTp tick.markPrice
  | .partial_close f =>
      lt (.num 0) f && lt f (.num 1) &&
      le minSize (mul tick.positionSize (sub (.num 1) f))

/-- An order-collaborator call (§6). -/
inductive OrderCall where
  | tightenStop (newPrice : JsNum)
  | adjustTakeProfit (newPrice : JsNum)
  | partialClose (fraction : JsNum)
  | closePosition
deriving DecidableEq, Repr

/-- Modelled from the spec: the validate-then-dispatch step of the advisor
orchestrator (§4.5 steps 5–6) of `src/core/position_heartbeat.ts`, which is
not under `src/`.  An invalid action is journaled as `rejected` and no order
is sent; a valid `hold` dispatches nothing. -/
def dispatchAdvisorAction (action : AdvisorAction) (tick : PositionTick)
    (stopLossPrice : Option JsNum) (minSize : JsNum) : Option OrderCall :=
  if validateAction action tick stopLossPrice minSize then
    match action with
    | .hold => none
    | .tighten_stop p => some (.tightenStop p)
    | .adjust_take_profit p => some (.adjustTakeProfit p)
    | .partial_close f => some (.partialClose f)
    | .close => some .closePosition
  else none

/-- `PositionHeartbeatDecision` from `src/memory/position_heartbeat_journal.ts`
(the fields the fingerprint rule reads; `kind` is the literal
`"position_heartbeat"`). -/
structure PositionHeartbeatDecision where
  symbol : String
  timestamp : String
  outcome : String
deriving DecidableEq, Repr

/-- A stored decision artifact, reduced to the idempotence key the journal
claim is about. -/
structure StoredArtifact where
  source : String
  kind : String
  marketId : String
  fingerprint : String
  key : String
deriving DecidableEq, Repr

/-- Modelled from the spec: `storeDecisionArtifact` of
`src/memory/decision_artifacts.ts`, which is not under `src/`.  Per §6 the
journal is idempotent on the fingerprint `"heartbeat:" + symbol + ":" +
timestamp`; since the heartbeat caller passes `source = "heartbeat"` and a
local fingerprint `symbol + ":" + timestamp`, the store's idempotence key is
the source, a colon, and the caller-supplied fingerprint. -/
def storeDecisionArtifact (source kind marketId fingerprint : String) : StoredArtifact :=
  { source := source
    kind := kind
    marketId := marketId
    fingerprint := fingerprint
    key := source ++ ":" ++ fingerprint }

/-- `recordPositionHeartbeatDecision` from
`src/memory/position_heartbeat_journal.ts`: computes the local fingerprint
`` `${entry.symbol}:${entry.timestamp}` `` and stores the artifact with
`source: 'heartbeat'`, `kind: entry.kind`, `marketId: entry.symbol`. -/
def recordPositionHeartbeatDecision (entry : PositionHeartbeatDecision) : StoredArtifact :=
  let fingerprint := entry.symbol ++ ":" ++ entry.timestamp
  storeDecisionArtifact "heartbeat" "position_heartbeat" entry.symbol fingerprint

/-! ## Threaded evaluation sequences

A sequence of calls to `evaluateHeartbeatTriggers` in which each call's
`nextState` becomes the next call's `state`.  The per-call inputs other than
the state are packaged as `StepInput`. -/

/-- The non-state inputs of one `evaluateHeartbeatTriggers` call. -/
structure StepInput where
  nowMs : ℤ
  tick : PositionTick
  buffer : List PositionTick
  cfg : HeartbeatTriggerConfig
  extra : ExtraFlags

/-- The trigger state before call `k` of a threaded sequence of
`evaluateHeartbeatTriggers` calls. -/
def stateSeq (steps : ℕ → StepInput) (s0 : TriggerState) : ℕ → TriggerState
  | 0 => s0
  | k + 1 =>
      let i := steps k
      (evaluateHeartbeatTriggers i.nowMs i.tick i.buffer (stateSeq steps s0 k)
        i.cfg i.extra).nextState

/-- The fired list of call `k` of a threaded sequence. -/
def firedSeq (steps : ℕ → StepInput) (s0 : TriggerState) (k : ℕ) :
    List HeartbeatTriggerName :=
  let i := steps k
  (evaluateHeartbeatTriggers i.nowMs i.tick i.buffer (stateSeq steps s0 k)
    i.cfg i.extra).fired

/-! ## Scenario S1 (quiet hold), concretely instantiated

Long ETH, entry 2080, stop 2050, TP 2140, equity 10000, size 1, funding 0;
mark held constant at 2080 (inside the spec's band [2078, 2085]); 60 ticks at
30-second intervals starting at `s1T0`; default configuration; default
trigger state; the advisor state is committed after every advised tick
(i.e. whenever the fired list is nonempty).  `distToLiquidationPct` is
derived as in §4.1 from a liquidation price of 1000. -/

def s1T0 : ℤ := 1000000

/-- The S1 tick at index `i` (timestamps 30 s apart, all other fields constant). -/
def s1Tick (i : ℕ) : PositionTick :=
  { timestamp := .num ((s1T0 + 30000 * i : ℤ) : ℚ)
    symbol := "ETH"
    markPrice := .num 2080
    entryPrice := .num 2080
    unrealizedPnl := .num 0
    pnlPctOfEquity := .num 0
    accountEquity := .num 10000
    liquidationPrice := .num 1000
    distToLiquidationPct := .num (mkRat 675 13)
    fundingRate := .num 0
    stopLossPrice := some (.num 2050)
    takeProfitPrice := some (.num 2140)
    positionSide := .long
    positionSize := .num 1 }

/-- Run the first `n` ticks of S1, returning the state after them and the
fired list of every tick in order. -/
def s1Run : ℕ → TriggerState × List (List HeartbeatTriggerName)
  | 0 => (defaultTriggerState s1T0, [])
  | n + 1 =>
      let (s, logs) := s1Run n
      let nowMs : ℤ := s1T0 + 30000 * n
      let buffer := (List.range (n + 1)).map s1Tick
      let r := evaluateHeartbeatTriggers nowMs (s1Tick n) buffer s
        defaultHeartbeatTriggerConfig ⟨false, false⟩
      let s' := if r.fired.isEmpty then r.nextState
                else commitAdvisorState nowMs (s1Tick n) r.nextState
      (s', logs ++ [r.fired])

/-- The per-tick fired lists of the 60-tick S1 run. -/
def s1Firings : List (List HeartbeatTriggerName) := (s1Run 60).2

/-- The evaluation order of the trigger checks in
`evaluateHeartbeatTriggers` (source order of the guarded `record` calls,
with the two `time_ceiling` branches collapsed to the single name they
share). -/
def triggerOrder : List HeartbeatTriggerName :=
  [position_opened, position_closed, stop_missing, pnl_shift, approaching_stop,
   approaching_tp, liquidation_proximity, funding_flip, funding_spike,
   volatility_spike, time_ceiling]

/-- A quiet, fully finite tick: long ETH at mark 2000, entry 1990, stop
1900, TP 2100, far from liquidation, zero funding.  Used as the base of the
concrete instances below. -/
def benignTick : PositionTick :=
  { timestamp := .num 1000
    symbol := "ETH"
    markPrice := .num 2000
    entryPrice := .num 1990
    unrealizedPnl := .num 10
    pnlPctOfEquity := .num (mkRat 1 10)
    accountEquity := .num 10000
    liquidationPrice := .num 1000
    distToLiquidationPct := .num 50
    fundingRate := .num 0
    stopLossPrice := some (.num 1900)
    takeProfitPrice := some (.num 2100)
    positionSide := .long
    positionSize := .num 1 }

/-- `benignTick` with no stop-loss order (fires `stop_missing`). -/
def noStopTick : PositionTick :=
  { benignTick with stopLossPrice := none }

/-- `benignTick` with `pnlPctOfEquity = +Infinity` (a non-finite field read
by `pnl_shift`). -/
def infPnlTick : PositionTick :=
  { benignTick with pnlPctOfEquity := .inf }

/-- `benignTick` with `NaN` in every field the claim about non-finite
inputs ranges over. -/
def nanFieldsTick : PositionTick :=
  { benignTick with
    markPrice := .nan
    pnlPctOfEquity := .nan
    fundingRate := .nan
    distToLiquidationPct := .nan
    stopLossPrice := some .nan
    takeProfitPrice := some .nan }

/-- `benignTick` with `pnlPctOfEquity = 1.4` (% of equity). -/
def c4QuietTick : PositionTick :=
  { benignTick with pnlPctOfEquity := .num (mkRat 7 5) }

/-- `benignTick` with `pnlPctOfEquity = 1.5` (% of equity). -/
def c4ShiftTick : PositionTick :=
  { benignTick with pnlPctOfEquity := .num (mkRat 3 2) }

/-- The long-position tick of the validation unit tests: side long, mark 2000. -/
def testLongTick : PositionTick :=
  { benignTick with positionSide := .long, markPrice := .num 2000 }

/-- The short-position tick of the validation unit tests: side short, mark 2000. -/
def testShortTick : PositionTick :=
  { benignTick with positionSide := .short, markPrice := .num 2000 }

/-- A two-call threaded sequence for the cooldown-separation claims:
`stop_missing` conditions hold on both calls (no stop present), sixty-one
seconds apart. -/
def c2Steps (k : ℕ) : StepInput :=
  { nowMs := if k = 0 then 1000000 else 1061000
    tick := noStopTick
    buffer := [noStopTick]
    cfg := defaultHeartbeatTriggerConfig
    extra := ⟨false, false⟩ }

/-! ## Bridging lemmas: the reducible rational helpers agree with the field
operations on `ℚ`. -/

theorem qsub_eq (a b : ℚ) : qsub a b = a - b := by
  have h := Rat.divInt_sub_divInt a.num b.num
    (show (a.den : ℤ) ≠ 0 by exact_mod_cast a.den_pos.ne')
    (show (b.den : ℤ) ≠ 0 by exact_mod_cast b.den_pos.ne')
  rw [Rat.num_divInt_den, Rat.num_divInt_den] at h
  rw [qsub, ← h]

theorem qmul_eq (a b : ℚ) : qmul a b = a * b := by
  have h := Rat.divInt_mul_divInt' a.num (a.den : ℤ) b.num (b.den : ℤ)
  rw [Rat.num_divInt_den, Rat.num_divInt_den] at h
  rw [qmul, ← h]

theorem qdiv_eq (a b : ℚ) : qdiv a b = a / b := by
  rw [qdiv, Rat.div_def', Int.mul_comm (a.den : ℤ) b.num]

/-! ## Structural lemmas about the check-runner -/

theorem runChecks_append (ms : ℤ) (l1 l2 : List (HeartbeatTriggerName × Bool))
    (acc : List HeartbeatTriggerName × (HeartbeatTriggerName → Option ℤ)) :
    runChecks ms (l1 ++ l2) acc = runChecks ms l2 (runChecks ms l1 acc) := by
  induction l1 generalizing acc with
  | nil => rfl
  | cons e rest ih =>
      cases e
      simp only [List.cons_append, runChecks]
      exact ih _

theorem mem_recordStep_of_mem {n : HeartbeatTriggerName} (ms : ℤ)
    (m : HeartbeatTriggerName)
    (acc : List HeartbeatTriggerName × (HeartbeatTriggerName → Option ℤ))
    (h : n ∈ acc.1) : n ∈ (recordStep ms m acc).1 := by
  unfold recordStep
  split
  · exact List.mem_append_left _ h
  · exact h

theorem runChecks_fired_mono {n : HeartbeatTriggerName} (ms : ℤ)
    (l : List (HeartbeatTriggerName × Bool))
    (acc : List HeartbeatTriggerName × (HeartbeatTriggerName → Option ℤ))
    (h : n ∈ acc.1) : n ∈ (runChecks ms l acc).1 := by
  induction l generalizing acc with
  | nil => exact h
  | cons e rest ih =>
      obtain ⟨m, c⟩ := e
      simp only [runChecks]
      split
      · exact ih _ (mem_recordStep_of_mem ms m acc h)
      · exact ih _ h

theorem runChecks_stamped_preserved {n : HeartbeatTriggerName} (ms : ℤ)
    (l : List (HeartbeatTriggerName × Bool))
    (acc : List HeartbeatTriggerName × (HeartbeatTriggerName → Option ℤ))
    (h : acc.2 n = some ms) : (runChecks ms l acc).2 n = some ms := by
  induction l generalizing acc with
  | nil => exact h
  | cons e rest ih =>
      obtain ⟨m, c⟩ := e
      simp only [runChecks]
      split
      · refine ih _ ?_
        unfold recordStep
        split
        · by_cases hnm : n = m <;> simp [hnm, h]
        · exact h
      · exact ih _ h

theorem runChecks_fired_stamped {n : HeartbeatTriggerName} (ms : ℤ)
    (l : List (HeartbeatTriggerName × Bool))
    (acc : List HeartbeatTriggerName × (HeartbeatTriggerName → Option ℤ))
    (hmem : n ∈ (runChecks ms l acc).1) (hnot : n ∉ acc.1) :
    (runChecks ms l acc).2 n = some ms := by
  induction l generalizing acc with
  | nil => exact absurd hmem hnot
  | cons e rest ih =>
      obtain ⟨m, c⟩ := e
      simp only [runChecks] at hmem ⊢
      by_cases hc : c = true
      · subst hc
        simp only [if_true] at hmem ⊢
        unfold recordStep at hmem ⊢
        by_cases hfire : canFire m ms acc.2 = true
        · simp only [hfire, if_true] at hmem ⊢
          by_cases hnm : n = m
          · subst hnm
            exact runChecks_stamped_preserved ms rest _ (by simp)
          · refine ih _ hmem ?_
            simp only [List.mem_append, List.mem_singleton]
            rintro (h | h)
            · exact hnot h
            · exact hnm h
        · simp only [hfire, if_false] at hmem ⊢
          exact ih _ hmem hnot
      · simp only [hc, if_false] at hmem ⊢
        exact ih _ hmem hnot

theorem runChecks_cds_cases (n : HeartbeatTriggerName) (ms : ℤ)
    (l : List (HeartbeatTriggerName × Bool))
    (acc : List HeartbeatTriggerName × (HeartbeatTriggerName → Option ℤ)) :
    (runChecks ms l acc).2 n = acc.2 n ∨
      ((runChecks ms l acc).2 n = some ms ∧ n ∈ (runChecks ms l acc).1) := by
  induction l generalizing acc with
  | nil => exact Or.inl rfl
  | cons e rest ih =>
      obtain ⟨m, c⟩ := e
      simp only [runChecks]
      split
      · unfold recordStep
        split
        · by_cases hnm : n = m
          · subst hnm
            refine Or.inr ⟨runChecks_stamped_preserved ms rest _ (by simp), ?_⟩
            exact runChecks_fired_mono ms rest _ (by simp)
          · rcases ih (acc.1 ++ [m], fun x => if x = m then some ms else acc.2 x) with h | h
            · simp only [hnm, if_false] at h
              exact Or.inl h
            · exact Or.inr h
        · exact ih acc
      · exact ih acc

theorem canFire_congr (n : HeartbeatTriggerName) (ms : ℤ)
    (cds cds' : HeartbeatTriggerName → Option ℤ) (h : cds n = cds' n) :
    canFire n ms cds = canFire n ms cds' := by
  unfold canFire
  rw [h]

theorem runChecks_fired_eligible {n : HeartbeatTriggerName} (ms : ℤ)
    (l : List (HeartbeatTriggerName × Bool))
    (acc : List HeartbeatTriggerName × (HeartbeatTriggerName → Option ℤ))
    (hmem : n ∈ (runChecks ms l acc).1) :
    n ∈ acc.1 ∨ canFire n ms acc.2 = true := by
  induction l generalizing acc with
  | nil => exact Or.inl hmem
  | cons e rest ih =>
      obtain ⟨m, c⟩ := e
      simp only [runChecks] at hmem
      by_cases hc : c = true
      · subst hc
        simp only [if_true] at hmem
        unfold recordStep at hmem
        by_cases hfire : canFire m ms acc.2 = true
        · simp only [hfire, if_true] at hmem
          by_cases hnm : n = m
          · subst hnm
            exact Or.inr hfire
          · rcases ih _ hmem with h | h
            · simp only [List.mem_append, List.mem_singleton] at h
              rcases h with h | h
              · exact Or.inl h
              · exact absurd h hnm
            · rw [canFire_congr n ms _ acc.2 (by simp [hnm])] at h
              exact Or.inr h
        · simp only [hfire, if_false] at hmem
          exact ih _ hmem
      · simp only [hc, if_false] at hmem
        exact ih _ hmem

theorem runChecks_not_fired {n : HeartbeatTriggerName} (ms : ℤ)
    (l : List (HeartbeatTriggerName × Bool))
    (acc : List HeartbeatTriggerName × (HeartbeatTriggerName → Option ℤ))
    (hcond : ∀ p ∈ l, p.1 = n → p.2 = false) (hnot : n ∉ acc.1) :
    n ∉ (runChecks ms l acc).1 := by
  induction l generalizing acc with
  | nil => exact hnot
  | cons e rest ih =>
      obtain ⟨m, c⟩ := e
      simp only [runChecks]
      by_cases hnm : m = n
      · subst hnm
        have : c = false := hcond (m, c) (List.mem_cons_self _ _) rfl
        subst this
        simp only [Bool.false_eq_true, if_false]
        exact ih _ (fun p hp => hcond p (List.mem_cons_of_mem _ hp)) hnot
      · split
        · refine ih _ (fun p hp => hcond p (List.mem_cons_of_mem _ hp)) ?_
          unfold recordStep
          split
          · simp only [List.mem_append, List.mem_singleton]
            rintro (h | h)
            · exact hnot h
            · exact hnm h.symm
          · exact hnot
        · exact ih _ (fun p hp => hcond p (List.mem_cons_of_mem _ hp)) hnot

theorem runChecks_cds_frame {n : HeartbeatTriggerName} (ms : ℤ)
    (l : List (HeartbeatTriggerName × Bool))
    (acc : List HeartbeatTriggerName × (HeartbeatTriggerName → Option ℤ))
    (h : ∀ p ∈ l, p.1 ≠ n) : (runChecks ms l acc).2 n = acc.2 n := by
  induction l generalizing acc with
  | nil => rfl
  | cons e rest ih =>
      obtain ⟨m, c⟩ := e
      have hmn : m ≠ n := h (m, c) (List.mem_cons_self _ _)
      simp only [runChecks]
      split
      · rw [ih _ (fun p hp => h p (List.mem_cons_of_mem _ hp))]
        unfold recordStep
        split
        · exact if_neg (fun hh : n = m => hmn hh.symm)
        · rfl
      · exact ih _ (fun p hp => h p (List.mem_cons_of_mem _ hp))

theorem runChecks_exists_sublist (ms : ℤ)
    (l : List (HeartbeatTriggerName × Bool))
    (acc : List HeartbeatTriggerName × (HeartbeatTriggerName → Option ℤ)) :
    ∃ ext, (runChecks ms l acc).1 = acc.1 ++ ext ∧ ext.Sublist (l.map Prod.fst) := by
  induction l generalizing acc with
  | nil => exact ⟨[], by simp [runChecks]⟩
  | cons e rest ih =>
      obtain ⟨m, c⟩ := e
      simp only [runChecks]
      split
      · unfold recordStep
        split
        · obtain ⟨ext, h1, h2⟩ := ih (acc.1 ++ [m], fun x => if x = m then some ms else acc.2 x)
          exact ⟨m :: ext, by simpa using h1, by simpa using List.Sublist.cons₂ m h2⟩
        · obtain ⟨ext, h1, h2⟩ := ih acc
          exact ⟨ext, h1, h2.cons m⟩
      · obtain ⟨ext, h1, h2⟩ := ih acc
        exact ⟨ext, h1, h2.cons m⟩

theorem runChecks_fired_frame {n : HeartbeatTriggerName} (ms : ℤ)
    (l : List (HeartbeatTriggerName × Bool))
    (acc : List HeartbeatTriggerName × (HeartbeatTriggerName → Option ℤ))
    (h : ∀ p ∈ l, p.1 ≠ n) : n ∈ (runChecks ms l acc).1 ↔ n ∈ acc.1 := by
  constructor
  · intro hmem
    obtain ⟨ext, h1, h2⟩ := runChecks_exists_sublist ms l acc
    rw [h1, List.mem_append] at hmem
    rcases hmem with hmem | hmem
    · exact hmem
    · exfalso
      have := h2.subset hmem
      simp only [List.mem_map] at this
      obtain ⟨p, hp, hpn⟩ := this
      exact h p hp hpn
  · exact runChecks_fired_mono ms l acc

theorem runChecks_singleton_iff (ms : ℤ)
    (l1 l2 : List (HeartbeatTriggerName × Bool)) (n : HeartbeatTriggerName)
    (c : Bool) (acc : List HeartbeatTriggerName × (HeartbeatTriggerName → Option ℤ))
    (h1 : ∀ p ∈ l1, p.1 ≠ n) (h2 : ∀ p ∈ l2, p.1 ≠ n) (hacc : n ∉ acc.1) :
    n ∈ (runChecks ms (l1 ++ (n, c) :: l2) acc).1 ↔
      (c = true ∧ canFire n ms acc.2 = true) := by
  rw [runChecks_append]
  have hmidcds : (runChecks ms l1 acc).2 n = acc.2 n := runChecks_cds_frame ms l1 acc h1
  have hmidmem : n ∉ (runChecks ms l1 acc).1 := fun h =>
    hacc ((runChecks_fired_frame ms l1 acc h1).1 h)
  simp only [runChecks]
  constructor
  · intro hmem
    by_cases hc : c = true
    · by_cases hfire : canFire n ms (runChecks ms l1 acc).2 = true
      · exact ⟨hc, by rw [← canFire_congr n ms _ _ hmidcds]; exact hfire⟩
      · exfalso
        simp only [hc, if_true] at hmem
        unfold recordStep at hmem
        simp only [hfire, if_false] at hmem
        exact hmidmem ((runChecks_fired_frame ms l2 _ h2).1 hmem)
    · exfalso
      simp only [hc, if_false] at hmem
      exact hmidmem ((runChecks_fired_frame ms l2 _ h2).1 hmem)
  · rintro ⟨hc, hfire⟩
    subst hc
    simp only [if_true]
    unfold recordStep
    rw [canFire_congr n ms _ _ hmidcds, hfire, if_pos rfl]
    exact runChecks_fired_mono ms l2 _ (by simp)

/-! ## Per-call lemmas about `evaluateHeartbeatTriggers` -/

theorem eval_fired_eligible {n : HeartbeatTriggerName} (ms : ℤ)
    (tick : PositionTick) (buf : List PositionTick) (s : TriggerState)
    (cfg : HeartbeatTriggerConfig) (ex : ExtraFlags)
    (h : n ∈ (evaluateHeartbeatTriggers ms tick buf s cfg ex).fired) :
    canFire n ms s.triggerCooldowns = true := by
  unfold evaluateHeartbeatTriggers at h
  rcases runChecks_fired_eligible ms _ _ h with h' | h'
  · exact absurd h' (List.not_mem_nil n)
  · exact h'

theorem eval_fired_stamped {n : HeartbeatTriggerName} (ms : ℤ)
    (tick : PositionTick) (buf : List PositionTick) (s : TriggerState)
    (cfg : HeartbeatTriggerConfig) (ex : ExtraFlags)
    (h : n ∈ (evaluateHeartbeatTriggers ms tick buf s cfg ex).fired) :
    (evaluateHeartbeatTriggers ms tick buf s cfg ex).nextState.triggerCooldowns n
      = some ms := by
  unfold evaluateHeartbeatTriggers at h ⊢
  exact runChecks_fired_stamped ms _ _ h (List.not_mem_nil n)

theorem eval_cds_update_iff (n : HeartbeatTriggerName) (ms : ℤ)
    (tick : PositionTick) (buf : List PositionTick) (s : TriggerState)
    (cfg : HeartbeatTriggerConfig) (ex : ExtraFlags) :
    (evaluateHeartbeatTriggers ms tick buf s cfg ex).nextState.triggerCooldowns n
      = if n ∈ (evaluateHeartbeatTriggers ms tick buf s cfg ex).fired then some ms
        else s.triggerCooldowns n := by
  split
  · exact eval_fired_stamped ms tick buf s cfg ex (by assumption)
  · rename_i hnot
    unfold evaluateHeartbeatTriggers at hnot ⊢
    rcases runChecks_cds_cases n ms
      (triggerChecks ms tick buf s cfg ex) ([], s.triggerCooldowns) with h | ⟨_, hmem⟩
    · exact h
    · exact absurd hmem hnot

/-! ## Small facts about the JS number model -/

theorem le_nan_right (x : JsNum) : JsNum.le x .nan = false := by
  cases x <;> rfl

theorem le_nan_left (x : JsNum) : JsNum.le .nan x = false := by
  cases x <;> rfl

theorem le_inf_left_eq_false (x : JsNum) (h : x ≠ .inf) : JsNum.le .inf x = false := by
  cases x with
  | num q => rfl
  | nan => rfl
  | inf => exact absurd rfl h
  | ninf => rfl

theorem sub_nan_left (x : JsNum) : JsNum.sub .nan x = .nan := by
  cases x <;> rfl

theorem pctDistance_nan_left (b : JsNum) : pctDistance .nan b = .inf := by
  cases b <;> rfl

theorem pctDistance_nan_right (a : JsNum) : pctDistance a .nan = .inf := by
  cases a with
  | num q => simp [pctDistance]
  | nan => rfl
  | inf => rfl
  | ninf => rfl

theorem movePctOf_nan_cases (basePx : JsNum) :
    movePctOf .nan basePx = .nan ∨ movePctOf .nan basePx = .num 0 := by
  cases basePx with
  | num qb =>
      by_cases h : 0 < qb
      · left
        simp [movePctOf, h, JsNum.sub, JsNum.abs, JsNum.div, JsNum.mul]
      · right
        simp [movePctOf, h]
  | nan => exact Or.inr rfl
  | inf => exact Or.inr rfl
  | ninf => exact Or.inr rfl

theorem ge_of_nan_left (x : JsNum) : JsNum.ge .nan x = false := le_nan_right x

theorem ge_num_zero_eq_false (t : JsNum) (h : JsNum.lt (.num 0) t = true) :
    JsNum.ge (.num 0) t = false := by
  cases t with
  | num q =>
      simp only [JsNum.lt, decide_eq_true_eq] at h
      simp [JsNum.ge, JsNum.le, not_le.2 h]
  | nan => cases h
  | inf => rfl
  | ninf => cases h

theorem canFire_time_ceiling (ms : ℤ) (cds : HeartbeatTriggerName → Option ℤ) :
    canFire .time_ceiling ms cds = true := by
  simp [canFire, defaultCooldownsMs]

theorem canFire_pos_iff (n : HeartbeatTriggerName) (ms : ℤ)
    (cds : HeartbeatTriggerName → Option ℤ) (h : 0 < defaultCooldownsMs n) :
    canFire n ms cds = true ↔ defaultCooldownsMs n ≤ ms - (cds n).getD 0 := by
  simp [canFire, not_le.2 h]

/-! ## The two `time_ceiling` entries are mutually exclusive -/

theorem tc_branches_exclusive (ms : ℤ) (s : TriggerState) (cfg : HeartbeatTriggerConfig)
    (h : condTimeCeilingAged ms s cfg = true) : condTimeCeilingFirst s cfg = false := by
  simp only [condTimeCeilingAged, Bool.and_eq_true, decide_eq_true_eq] at h
  simp only [condTimeCeilingFirst, Bool.and_eq_false_iff, decide_eq_false_iff_not]
  right
  omega

theorem runChecks_two_tc_fst (ms : ℤ) (b1 b2 : Bool) (h : b1 = true → b2 = false)
    (acc : List HeartbeatTriggerName × (HeartbeatTriggerName → Option ℤ)) :
    (runChecks ms [(time_ceiling, b1), (time_ceiling, b2)] acc).1 = acc.1 ∨
    (runChecks ms [(time_ceiling, b1), (time_ceiling, b2)] acc).1
      = acc.1 ++ [time_ceiling] := by
  cases b1 with
  | true =>
      have hb2 := h rfl
      subst hb2
      simp only [runChecks, if_true, Bool.false_eq_true, if_false]
      right
      unfold recordStep
      rw [canFire_time_ceiling, if_pos rfl]
  | false =>
      simp only [runChecks, Bool.false_eq_true, if_false]
      cases b2 with
      | true =>
          right
          simp only [if_true]
          unfold recordStep
          rw [canFire_time_ceiling, if_pos rfl]
      | false =>
          left
          simp only [Bool.false_eq_true, if_false]

/-- **C10.**  In the fired list returned by any single call to
`evaluateHeartbeatTriggers`, each trigger name appears at most once, and the
names that do appear occur in the fixed evaluation order `position_opened`,
`position_closed`, `stop_missing`, `pnl_shift`, `approaching_stop`,
`approaching_tp`, `liquidation_proximity`, `funding_flip`, `funding_spike`,
`volatility_spike`, `time_ceiling` (the fired list is a duplicate-free
sublist of `triggerOrder`). -/
theorem claim_C10_fired_order (ms : ℤ) (tick : PositionTick)
    (buf : List PositionTick) (s : TriggerState) (cfg : HeartbeatTriggerConfig)
    (ex : ExtraFlags) :
    (evaluateHeartbeatTriggers ms tick buf s cfg ex).fired.Sublist triggerOrder ∧
    (evaluateHeartbeatTriggers ms tick buf s cfg ex).fired.Nodup := by
  suffices hs :
      (evaluateHeartbeatTriggers ms tick buf s cfg ex).fired.Sublist triggerOrder by
    exact ⟨hs, hs.nodup (by decide)⟩
  show ((runChecks ms (triggerChecks ms tick buf s cfg ex)
    ([], s.triggerCooldowns)).1).Sublist triggerOrder
  have hsplit : triggerChecks ms tick buf s cfg ex =
      (triggerChecks ms tick buf s cfg ex).take 10 ++
      [(time_ceiling, condTimeCeilingAged ms s cfg),
       (time_ceiling, condTimeCeilingFirst s cfg)] := rfl
  rw [hsplit, runChecks_append]
  obtain ⟨ext, hext, hsub⟩ := runChecks_exists_sublist ms
    ((triggerChecks ms tick buf s cfg ex).take 10) ([], s.triggerCooldowns)
  have horder : triggerOrder =
      ((triggerChecks ms tick buf s cfg ex).take 10).map Prod.fst ++ [time_ceiling] := rfl
  rcases runChecks_two_tc_fst ms _ _ (tc_branches_exclusive ms s cfg)
    (runChecks ms ((triggerChecks ms tick buf s cfg ex).take 10)
      ([], s.triggerCooldowns)) with h | h
  · rw [h, hext, List.nil_append, horder]
    exact hsub.trans (List.sublist_append_left _ _)
  · rw [h, hext, List.nil_append, horder]
    exact List.Sublist.append hsub (List.Sublist.refl _)

/-- **C6.**  For every call to `evaluateHeartbeatTriggers`, the returned
`nextState`'s `triggerCooldowns` entry is set to `nowMs` for exactly the
trigger names appearing in the returned fired list — an entry is updated if
and only if that trigger fired, all other entries are returned unchanged —
and the advisor-committed fields `lastLlmCheckTimestamp`,
`lastLlmPnlPctOfEquity`, `lastLlmMarkPrice` and `lastFundingRateSign` of
`nextState` are unchanged from the input state. -/
theorem claim_C6_evaluator_frame (ms : ℤ) (tick : PositionTick)
    (buf : List PositionTick) (s : TriggerState) (cfg : HeartbeatTriggerConfig)
    (ex : ExtraFlags) :
    (∀ n, (evaluateHeartbeatTriggers ms tick buf s cfg ex).nextState.triggerCooldowns n
        = if n ∈ (evaluateHeartbeatTriggers ms tick buf s cfg ex).fired then some ms
          else s.triggerCooldowns n) ∧
    (evaluateHeartbeatTriggers ms tick buf s cfg ex).nextState.lastLlmCheckTimestamp
      = s.lastLlmCheckTimestamp ∧
    (evaluateHeartbeatTriggers ms tick buf s cfg ex).nextState.lastLlmPnlPctOfEquity
      = s.lastLlmPnlPctOfEquity ∧
    (evaluateHeartbeatTriggers ms tick buf s cfg ex).nextState.lastLlmMarkPrice
      = s.lastLlmMarkPrice ∧
    (evaluateHeartbeatTriggers ms tick buf s cfg ex).nextState.lastFundingRateSign
      = s.lastFundingRateSign :=
  ⟨fun n => eval_cds_update_iff n ms tick buf s cfg ex, rfl, rfl, rfl, rfl⟩

/-! ## Cooldown separation across threaded call sequences -/

theorem stateSeq_succ (steps : ℕ → StepInput) (s0 : TriggerState) (k : ℕ) :
    stateSeq steps s0 (k + 1) =
      (evaluateHeartbeatTriggers (steps k).nowMs (steps k).tick (steps k).buffer
        (stateSeq steps s0 k) (steps k).cfg (steps k).extra).nextState := rfl

theorem firedSeq_def (steps : ℕ → StepInput) (s0 : TriggerState) (k : ℕ) :
    firedSeq steps s0 k =
      (evaluateHeartbeatTriggers (steps k).nowMs (steps k).tick (steps k).buffer
        (stateSeq steps s0 k) (steps k).cfg (steps k).extra).fired := rfl

theorem stateSeq_cds_frozen (steps : ℕ → StepInput) (s0 : TriggerState)
    (n : HeartbeatTriggerName) (i : ℕ) (hfire : n ∈ firedSeq steps s0 i) :
    ∀ d, (∀ m, i < m → m < i + 1 + d → n ∉ firedSeq steps s0 m) →
      (stateSeq steps s0 (i + 1 + d)).triggerCooldowns n = some (steps i).nowMs := by
  intro d
  induction d with
  | zero =>
      intro _
      rw [stateSeq_succ]
      exact eval_fired_stamped _ _ _ _ _ _ hfire
  | succ d ih =>
      intro h
      have hstep : i + 1 + (d + 1) = (i + 1 + d) + 1 := by omega
      rw [hstep, stateSeq_succ, eval_cds_update_iff, if_neg, ih]
      · intro m hm1 hm2
        exact h m hm1 (by omega)
      · rw [← firedSeq_def]
        exact h (i + 1 + d) (by omega) (by omega)

/-- **C2.**  The three zero-cooldown triggers are `time_ceiling`,
`position_opened` and `position_closed`; for every trigger name `n` with
positive cooldown and every threaded sequence of calls to
`evaluateHeartbeatTriggers`, (a) `n` fires at time `nowMs` only if `nowMs`
minus the stored cooldowns entry for `n` (0 if absent) is at least `n`'s
cooldown, (b) firing sets that entry to `nowMs`, and (c) consecutive
firings of `n` are separated by at least its cooldown. -/
theorem claim_C2_cooldown_separation :
    defaultCooldownsMs time_ceiling = 0 ∧
    defaultCooldownsMs position_opened = 0 ∧
    defaultCooldownsMs position_closed = 0 ∧
    ∀ (steps : ℕ → StepInput) (s0 : TriggerState) (n : HeartbeatTriggerName),
      0 < defaultCooldownsMs n →
      (∀ k, n ∈ firedSeq steps s0 k →
        defaultCooldownsMs n ≤
            (steps k).nowMs - ((stateSeq steps s0 k).triggerCooldowns n).getD 0 ∧
          (stateSeq steps s0 (k + 1)).triggerCooldowns n = some (steps k).nowMs) ∧
      (∀ i j, i < j → n ∈ firedSeq steps s0 i → n ∈ firedSeq steps s0 j →
        (∀ k, i < k → k < j → n ∉ firedSeq steps s0 k) →
        defaultCooldownsMs n ≤ (steps j).nowMs - (steps i).nowMs) := by
  refine ⟨rfl, rfl, rfl, fun steps s0 n hpos => ⟨fun k hk => ⟨?_, ?_⟩, ?_⟩⟩
  · have := eval_fired_eligible _ _ _ _ _ _ (by rw [firedSeq_def] at hk; exact hk)
    exact (canFire_pos_iff n _ _ hpos).1 this
  · rw [stateSeq_succ]
    exact eval_fired_stamped _ _ _ _ _ _ hk
  · intro i j hij hi hj hgap
    obtain ⟨d, rfl⟩ : ∃ d, j = i + 1 + d := ⟨j - i - 1, by omega⟩
    have hfrozen := stateSeq_cds_frozen steps s0 n i hi d (fun m h1 h2 => hgap m h1 h2)
    have helig := eval_fired_eligible _ _ _ _ _ _
      (by rw [firedSeq_def] at hj; exact hj)
    have := (canFire_pos_iff n _ _ hpos).1 helig
    rw [hfrozen] at this
    simpa using this

/-- Witness for C2: `stop_missing` (cooldown 60 s) fires on both calls of
the concrete two-call sequence `c2Steps` (1000 ms and 62000 ms), and the
separation bound instantiates to 60000 ≤ 62000 − 1000. -/
theorem claim_C2_witness :
    0 < defaultCooldownsMs stop_missing ∧
    stop_missing ∈ firedSeq c2Steps (defaultTriggerState 0) 0 ∧
    stop_missing ∈ firedSeq c2Steps (defaultTriggerState 0) 1 ∧
    defaultCooldownsMs stop_missing ≤ (c2Steps 1).nowMs - (c2Steps 0).nowMs := by
  refine ⟨by decide, by decide, by decide, ?_⟩
  exact (claim_C2_cooldown_separation.2.2.2 c2Steps (defaultTriggerState 0)
    stop_missing (by decide)).2 0 1 (by omega) (by decide) (by decide)
    (fun k h1 h2 => (by omega : False).elim)

/-- **C7 (counterexample).**  The claim asserts that evaluating
`evaluateHeartbeatTriggers` twice on the same inputs produces identical
fired lists and that the evaluator does not modify the input state it was
given.  In the source, `record` assigns into `params.state.triggerCooldowns`
and the function returns that same object as `nextState`, so a caller that
replays the same tick with the same state object runs the second call on the
state left behind by the first — here modelled by feeding the first call's
`nextState` into the second call.  At `nowMs = 1000000` with a stop-less
tick, the first call fires `stop_missing` and `time_ceiling`; the second
call, sixty-second cooldown not yet elapsed (`1000000 − 1000000 = 0`), fires
only `time_ceiling`: the fired lists differ. -/
theorem claim_C7_counterexample :
    (evaluateHeartbeatTriggers 1000000 noStopTick [noStopTick]
      (defaultTriggerState 0) defaultHeartbeatTriggerConfig ⟨false, false⟩).fired ≠
    (evaluateHeartbeatTriggers 1000000 noStopTick [noStopTick]
      ((evaluateHeartbeatTriggers 1000000 noStopTick [noStopTick]
        (defaultTriggerState 0) defaultHeartbeatTriggerConfig ⟨false, false⟩).nextState)
      defaultHeartbeatTriggerConfig ⟨false, false⟩).fired := by
  decide

/-- **C7 (amended).**  As a function of its input values the embedded
evaluator is deterministic by construction; but because the source returns
the caller's state object mutated in place, replaying the same tick "with
the same state" threads the first call's `nextState` into the second call,
and every trigger with positive cooldown that fired on the first call is
then absent from the second call's fired list (its cooldown entry was just
stamped with the same `nowMs`). -/
theorem claim_C7_replay_drops_fired (ms : ℤ) (tick : PositionTick)
    (buf : List PositionTick) (s : TriggerState) (cfg : HeartbeatTriggerConfig)
    (ex : ExtraFlags) (n : HeartbeatTriggerName)
    (hpos : 0 < defaultCooldownsMs n)
    (hfired : n ∈ (evaluateHeartbeatTriggers ms tick buf s cfg ex).fired) :
    n ∉ (evaluateHeartbeatTriggers ms tick buf
      ((evaluateHeartbeatTriggers ms tick buf s cfg ex).nextState) cfg ex).fired := by
  intro hsecond
  have hstamp := eval_fired_stamped ms tick buf s cfg ex hfired
  have helig := eval_fired_eligible ms tick buf
    ((evaluateHeartbeatTriggers ms tick buf s cfg ex).nextState) cfg ex hsecond
  rw [canFire_pos_iff n ms _ hpos, hstamp] at helig
  simp only [Option.getD_some] at helig
  omega

/-- Witness for the amended C7: at the counterexample's inputs,
`stop_missing` (cooldown 60 s) fires on the first call and is dropped from
the immediate replay. -/
theorem claim_C7_witness :
    0 < defaultCooldownsMs stop_missing ∧
    stop_missing ∈ (evaluateHeartbeatTriggers 1000000 noStopTick [noStopTick]
      (defaultTriggerState 0) defaultHeartbeatTriggerConfig ⟨false, false⟩).fired ∧
    stop_missing ∉ (evaluateHeartbeatTriggers 1000000 noStopTick [noStopTick]
      ((evaluateHeartbeatTriggers 1000000 noStopTick [noStopTick]
        (defaultTriggerState 0) defaultHeartbeatTriggerConfig ⟨false, false⟩).nextState)
      defaultHeartbeatTriggerConfig ⟨false, false⟩).fired :=
  ⟨by decide, by decide,
    claim_C7_replay_drops_fired 1000000 noStopTick [noStopTick]
      (defaultTriggerState 0) defaultHeartbeatTriggerConfig ⟨false, false⟩
      stop_missing (by decide) (by decide)⟩

/-- **C3 (counterexample).**  Scenario S1 instantiated concretely (mark held
at 2080, inside the prescribed band): the claim asserts exactly one
`time_ceiling` firing across the 60-tick run, but the code fires
`time_ceiling` twice — once on the very first tick, because
`defaultTriggerState` puts `lastLlmCheckTimestamp = 0` and the evaluator
fires `time_ceiling` promptly when no prior check is recorded, and once at
tick 30 (15 minutes after the first commit). -/
theorem claim_C3_counterexample :
    ¬ (s1Firings.countP (fun l => decide (time_ceiling ∈ l)) = 1) := by
  decide

/-- **C3 (amended).**  In the concrete S1 run (60 ticks at 30-second
intervals from the default trigger state, committing advisor state after
each advised tick), `time_ceiling` fires exactly twice — on tick 0 (no
prior advisor check recorded) and on tick 30, at the 15-minute mark after
the first commit — and no other trigger fires on any tick. -/
theorem claim_C3_two_time_ceiling_firings :
    s1Firings = (List.range 60).map
      (fun i => if i = 0 ∨ i = 30 then [time_ceiling] else []) := by
  decide

/-- **C4.**  With the default configuration, `pnl_shift` fires on a tick if
and only if the absolute difference between `tick.pnlPctOfEquity` and the
state's last-advised `pnlPctOfEquity` is at least 1.5 (the default
`pnlShiftPct`) and its 180-second cooldown has elapsed; in particular a
shift of exactly 1.5 % of equity (from the zero baseline) fires and a shift
of 1.4 % does not. -/
theorem claim_C4_pnl_shift :
    (∀ (ms : ℤ) (tick : PositionTick) (buf : List PositionTick) (s : TriggerState)
        (ex : ExtraFlags),
      pnl_shift ∈ (evaluateHeartbeatTriggers ms tick buf s
          defaultHeartbeatTriggerConfig ex).fired ↔
        (ge (abs (sub tick.pnlPctOfEquity s.lastLlmPnlPctOfEquity))
            (.num (mkRat 3 2)) = true ∧
          180000 ≤ ms - (s.triggerCooldowns pnl_shift).getD 0)) ∧
    pnl_shift ∈ (evaluateHeartbeatTriggers 1000000 c4ShiftTick []
      (defaultTriggerState 0) defaultHeartbeatTriggerConfig ⟨false, false⟩).fired ∧
    pnl_shift ∉ (evaluateHeartbeatTriggers 1000000 c4QuietTick []
      (defaultTriggerState 0) defaultHeartbeatTriggerConfig ⟨false, false⟩).fired := by
  refine ⟨fun ms tick buf s ex => ?_, by decide, by decide⟩
  have hsplit : triggerChecks ms tick buf s defaultHeartbeatTriggerConfig ex =
      [(position_opened, condPositionOpened ex),
       (position_closed, condPositionClosed ex),
       (stop_missing, condStopMissing tick)] ++
      (pnl_shift, condPnlShift tick s defaultHeartbeatTriggerConfig) ::
      [(approaching_stop, condApproachingStop tick defaultHeartbeatTriggerConfig),
       (approaching_tp, condApproachingTp tick defaultHeartbeatTriggerConfig),
       (liquidation_proximity, condLiquidationProximity tick defaultHeartbeatTriggerConfig),
       (funding_flip, condFundingFlip tick s),
       (funding_spike, condFundingSpike tick defaultHeartbeatTriggerConfig),
       (volatility_spike, condVolatilitySpike tick buf defaultHeartbeatTriggerConfig),
       (time_ceiling, condTimeCeilingAged ms s defaultHeartbeatTriggerConfig),
       (time_ceiling, condTimeCeilingFirst s defaultHeartbeatTriggerConfig)] := rfl
  have h1 : ∀ p ∈ [(position_opened, condPositionOpened ex),
       (position_closed, condPositionClosed ex),
       (stop_missing, condStopMissing tick)], p.1 ≠ pnl_shift := by
    rintro p hp
    simp only [List.mem_cons, List.not_mem_nil, or_false] at hp
    rcases hp with rfl | rfl | rfl <;> simp
  have h2 : ∀ p ∈ [(approaching_stop, condApproachingStop tick defaultHeartbeatTriggerConfig),
       (approaching_tp, condApproachingTp tick defaultHeartbeatTriggerConfig),
       (liquidation_proximity, condLiquidationProximity tick defaultHeartbeatTriggerConfig),
       (funding_flip, condFundingFlip tick s),
       (funding_spike, condFundingSpike tick defaultHeartbeatTriggerConfig),
       (volatility_spike, condVolatilitySpike tick buf defaultHeartbeatTriggerConfig),
       (time_ceiling, condTimeCeilingAged ms s defaultHeartbeatTriggerConfig),
       (time_ceiling, condTimeCeilingFirst s defaultHeartbeatTriggerConfig)],
      p.1 ≠ pnl_shift := by
    rintro p hp
    simp only [List.mem_cons, List.not_mem_nil, or_false] at hp
    rcases hp with rfl | rfl | rfl | rfl | rfl | rfl | rfl | rfl <;> simp
  have hiff := runChecks_singleton_iff ms _ _ pnl_shift
    (condPnlShift tick s defaultHeartbeatTriggerConfig) ([], s.triggerCooldowns)
    h1 h2 (List.not_mem_nil _)
  show pnl_shift ∈ (runChecks ms
    (triggerChecks ms tick buf s defaultHeartbeatTriggerConfig ex)
    ([], s.triggerCooldowns)).1 ↔ _
  rw [hsplit, hiff]
  have hcond : condPnlShift tick s defaultHeartbeatTriggerConfig =
      ge (abs (sub tick.pnlPctOfEquity s.lastLlmPnlPctOfEquity)) (.num (mkRat 3 2)) := by
    simp only [condPnlShift, defaultHeartbeatTriggerConfig]
    congr 1
  rw [hcond, canFire_pos_iff _ _ _ (by decide)]
  constructor
  · rintro ⟨hc, hcd⟩
    refine ⟨hc, ?_⟩
    simp only [defaultCooldownsMs] at hcd
    omega
  · rintro ⟨hc, hcd⟩
    refine ⟨hc, ?_⟩
    simp only [defaultCooldownsMs]
    omega

/-- Witness for C4: the characterization instantiated at a concrete firing
tick (shift exactly 1.5 % from the zero baseline, cooldown map empty,
`nowMs = 1000000`). -/
theorem claim_C4_witness :
    ge (abs (sub c4ShiftTick.pnlPctOfEquity
        (defaultTriggerState 0).lastLlmPnlPctOfEquity)) (.num (mkRat 3 2)) = true ∧
    180000 ≤ (1000000 : ℤ) -
      (((defaultTriggerState 0).triggerCooldowns pnl_shift).getD 0) ∧
    pnl_shift ∈ (evaluateHeartbeatTriggers 1000000 c4ShiftTick []
      (defaultTriggerState 0) defaultHeartbeatTriggerConfig ⟨false, false⟩).fired :=
  ⟨by decide, by decide,
    (claim_C4_pnl_shift.1 1000000 c4ShiftTick [] (defaultTriggerState 0)
      ⟨false, false⟩).mpr ⟨by decide, by decide⟩⟩

theorem eval_not_fired_of_conds (ms : ℤ) (tick : PositionTick)
    (buf : List PositionTick) (s : TriggerState) (cfg : HeartbeatTriggerConfig)
    (ex : ExtraFlags) (n : HeartbeatTriggerName)
    (h : ∀ p ∈ triggerChecks ms tick buf s cfg ex, p.1 = n → p.2 = false) :
    n ∉ (evaluateHeartbeatTriggers ms tick buf s cfg ex).fired := by
  unfold evaluateHeartbeatTriggers
  exact runChecks_not_fired ms _ _ h (List.not_mem_nil n)

theorem eval_not_fired_cond (ms : ℤ) (tick : PositionTick)
    (buf : List PositionTick) (s : TriggerState) (cfg : HeartbeatTriggerConfig)
    (ex : ExtraFlags) :
    (condPnlShift tick s cfg = false →
      pnl_shift ∉ (evaluateHeartbeatTriggers ms tick buf s cfg ex).fired) ∧
    (condApproachingStop tick cfg = false →
      approaching_stop ∉ (evaluateHeartbeatTriggers ms tick buf s cfg ex).fired) ∧
    (condApproachingTp tick cfg = false →
      approaching_tp ∉ (evaluateHeartbeatTriggers ms tick buf s cfg ex).fired) ∧
    (condLiquidationProximity tick cfg = false →
      liquidation_proximity ∉ (evaluateHeartbeatTriggers ms tick buf s cfg ex).fired) ∧
    (condFundingFlip tick s = false →
      funding_flip ∉ (evaluateHeartbeatTriggers ms tick buf s cfg ex).fired) ∧
    (condFundingSpike tick cfg = false →
      funding_spike ∉ (evaluateHeartbeatTriggers ms tick buf s cfg ex).fired) ∧
    (condVolatilitySpike tick buf cfg = false →
      volatility_spike ∉ (evaluateHeartbeatTriggers ms tick buf s cfg ex).fired) ∧
    (condStopMissing tick = false →
      stop_missing ∉ (evaluateHeartbeatTriggers ms tick buf s cfg ex).fired) := by
  refine ⟨?_, ?_, ?_, ?_, ?_, ?_, ?_, ?_⟩ <;>
    · intro hc
      apply eval_not_fired_of_conds
      intro p hp
      simp only [triggerChecks, List.mem_cons, List.not_mem_nil, or_false] at hp
      rcases hp with rfl | rfl | rfl | rfl | rfl | rfl | rfl | rfl | rfl | rfl | rfl | rfl <;>
        simp_all

/-- **C5 (counterexample).**  The claim says every trigger reading a
non-finite tick field does not fire.  But the `pnl_shift` guard has no
finiteness check: with `tick.pnlPctOfEquity = +Infinity` and the default
configuration, `Math.abs(Infinity - 0) >= 1.5` holds and `pnl_shift` fires
(the same shape makes `funding_spike` fire on `fundingRate = ±Infinity` and
`liquidation_proximity` on `distToLiquidationPct = -Infinity`). -/
theorem claim_C5_counterexample :
    pnl_shift ∈ (evaluateHeartbeatTriggers 1000000 infPnlTick []
      (defaultTriggerState 0) defaultHeartbeatTriggerConfig ⟨false, false⟩).fired := by
  decide

/-- **C5 (amended).**  The `NaN` half of the claim holds: provided the
`approaching_stop`/`approaching_tp` thresholds are not `±Infinity` in
magnitude and the `volatility_spike` threshold is positive in magnitude
(all true of the defaults), a `NaN` in any of the listed fields of the
current tick prevents every trigger reading that field from firing.  (For
`±Infinity` the claim fails, see the counterexample: the pnl, funding and
liquidation guards compare without a finiteness check.) -/
theorem claim_C5_nan_not_fired (ms : ℤ) (tick : PositionTick)
    (buf : List PositionTick) (s : TriggerState) (cfg : HeartbeatTriggerConfig)
    (ex : ExtraFlags)
    (hstop : JsNum.abs cfg.approachingStopPct ≠ .inf)
    (htp : JsNum.abs cfg.approachingTpPct ≠ .inf)
    (hvol : JsNum.lt (.num 0) (JsNum.abs cfg.volatilitySpikePct) = true) :
    (tick.markPrice = .nan →
      approaching_stop ∉ (evaluateHeartbeatTriggers ms tick buf s cfg ex).fired ∧
      approaching_tp ∉ (evaluateHeartbeatTriggers ms tick buf s cfg ex).fired ∧
      volatility_spike ∉ (evaluateHeartbeatTriggers ms tick buf s cfg ex).fired) ∧
    (tick.pnlPctOfEquity = .nan →
      pnl_shift ∉ (evaluateHeartbeatTriggers ms tick buf s cfg ex).fired) ∧
    (tick.fundingRate = .nan →
      funding_flip ∉ (evaluateHeartbeatTriggers ms tick buf s cfg ex).fired ∧
      funding_spike ∉ (evaluateHeartbeatTriggers ms tick buf s cfg ex).fired) ∧
    (tick.distToLiquidationPct = .nan →
      liquidation_proximity ∉ (evaluateHeartbeatTriggers ms tick buf s cfg ex).fired) ∧
    (tick.stopLossPrice = some .nan →
      stop_missing ∉ (evaluateHeartbeatTriggers ms tick buf s cfg ex).fired ∧
      approaching_stop ∉ (evaluateHeartbeatTriggers ms tick buf s cfg ex).fired) ∧
    (tick.takeProfitPrice = some .nan →
      approaching_tp ∉ (evaluateHeartbeatTriggers ms tick buf s cfg ex).fired) := by
  obtain ⟨hps, has, hat, hlp, hff, hfs, hvs, hsm⟩ :=
    eval_not_fired_cond ms tick buf s cfg ex
  refine ⟨fun hmark => ⟨?_, ?_, ?_⟩, fun hpnl => ?_, fun hfund => ⟨?_, ?_⟩,
    fun hdist => ?_, fun hstopnan => ⟨?_, ?_⟩, fun htpnan => ?_⟩
  · refine has ?_
    unfold condApproachingStop
    cases hsl : tick.stopLossPrice with
    | none => rfl
    | some sl =>
        show JsNum.le (pctDistance tick.markPrice sl)
          (JsNum.abs cfg.approachingStopPct) = false
        rw [hmark, pctDistance_nan_left]
        exact le_inf_left_eq_false _ hstop
  · refine hat ?_
    unfold condApproachingTp
    cases htpp : tick.takeProfitPrice with
    | none => rfl
    | some tp =>
        show JsNum.le (pctDistance tick.markPrice tp)
          (JsNum.abs cfg.approachingTpPct) = false
        rw [hmark, pctDistance_nan_left]
        exact le_inf_left_eq_false _ htp
  · refine hvs ?_
    unfold condVolatilitySpike
    split
    · cases hbase : buf.get? (buf.length - (volWindow cfg).toNat) with
      | none => rfl
      | some base =>
          show JsNum.ge (movePctOf tick.markPrice base.markPrice)
            (JsNum.abs cfg.volatilitySpikePct) = false
          rw [hmark]
          rcases movePctOf_nan_cases base.markPrice with hmp | hmp <;> rw [hmp]
          · exact le_nan_right _
          · exact ge_num_zero_eq_false _ hvol
    · rfl
  · refine hps ?_
    unfold condPnlShift
    rw [hpnl, sub_nan_left]
    exact le_nan_right _
  · refine hff ?_
    unfold condFundingFlip
    rw [hfund]
    simp [signOf]
  · refine hfs ?_
    unfold condFundingSpike
    rw [hfund]
    exact le_nan_right _
  · refine hlp ?_
    unfold condLiquidationProximity
    rw [hdist]
    exact le_nan_left _
  · refine hsm ?_
    unfold condStopMissing
    rw [hstopnan]
    rfl
  · refine has ?_
    unfold condApproachingStop
    rw [hstopnan]
    show JsNum.le (pctDistance tick.markPrice JsNum.nan)
      (JsNum.abs cfg.approachingStopPct) = false
    rw [pctDistance_nan_right]
    exact le_inf_left_eq_false _ hstop
  · refine hat ?_
    unfold condApproachingTp
    rw [htpnan]
    show JsNum.le (pctDistance tick.markPrice JsNum.nan)
      (JsNum.abs cfg.approachingTpPct) = false
    rw [pctDistance_nan_right]
    exact le_inf_left_eq_false _ htp

/-- Witness for the amended C5: at `nanFieldsTick` (NaN in every listed
field) with the default configuration, none of the guarded triggers fires. -/
theorem claim_C5_witness :
    JsNum.abs defaultHeartbeatTriggerConfig.approachingStopPct ≠ .inf ∧
    JsNum.abs defaultHeartbeatTriggerConfig.approachingTpPct ≠ .inf ∧
    JsNum.lt (.num 0) (JsNum.abs defaultHeartbeatTriggerConfig.volatilitySpikePct) = true ∧
    pnl_shift ∉ (evaluateHeartbeatTriggers 1000000 nanFieldsTick []
      (defaultTriggerState 0) defaultHeartbeatTriggerConfig ⟨false, false⟩).fired ∧
    approaching_stop ∉ (evaluateHeartbeatTriggers 1000000 nanFieldsTick []
      (defaultTriggerState 0) defaultHeartbeatTriggerConfig ⟨false, false⟩).fired :=
  ⟨by decide, by decide, by decide,
    (claim_C5_nan_not_fired 1000000 nanFieldsTick [] (defaultTriggerState 0)
      defaultHeartbeatTriggerConfig ⟨false, false⟩ (by decide) (by decide)
      (by decide)).2.1 rfl,
    ((claim_C5_nan_not_fired 1000000 nanFieldsTick [] (defaultTriggerState 0)
      defaultHeartbeatTriggerConfig ⟨false, false⟩ (by decide) (by decide)
      (by decide)).1 rfl).1⟩

/-- **C9.**  `clampInt` makes `evaluateHeartbeatTriggers` total in its
configuration: `volatilitySpikeWindowTicks` and `timeCeilingMinutes` are
clamped into [1, 10000] and `triggerCooldownSeconds` into [0, 86400], with
any non-finite value replaced by the minimum; consequently the buffer
access at index `buffer.length − window` performed by the
`volatility_spike` check is in bounds (the `get?` is `some`) whenever its
guard `window ≤ buffer.length` passes, because the clamped window is at
least 1. -/
theorem claim_C9_clamping :
    (∀ n : JsNum, 1 ≤ clampInt n 1 10000 ∧ clampInt n 1 10000 ≤ 10000) ∧
    (∀ n : JsNum, 0 ≤ clampInt n 0 86400 ∧ clampInt n 0 86400 ≤ 86400) ∧
    (∀ n : JsNum, n.isFinite = false →
      clampInt n 1 10000 = 1 ∧ clampInt n 0 86400 = 0) ∧
    (∀ (cfg : HeartbeatTriggerConfig) (buffer : List PositionTick),
      (volWindow cfg).toNat ≤ buffer.length →
      (buffer.get? (buffer.length - (volWindow cfg).toNat)).isSome = true) := by
  have hclamp : ∀ (n : JsNum) (lo hi : ℤ), lo ≤ hi →
      lo ≤ clampInt n lo hi ∧ clampInt n lo hi ≤ hi := by
    intro n lo hi hlohi
    cases n with
    | num q => simp only [clampInt]; omega
    | nan => simp only [clampInt]; omega
    | inf => simp only [clampInt]; omega
    | ninf => simp only [clampInt]; omega
  refine ⟨fun n => hclamp n 1 10000 (by omega), fun n => hclamp n 0 86400 (by omega),
    fun n hn => ?_, fun cfg buffer hlen => ?_⟩
  · cases n with
    | num q => simp [JsNum.isFinite] at hn
    | nan => exact ⟨rfl, rfl⟩
    | inf => exact ⟨rfl, rfl⟩
    | ninf => exact ⟨rfl, rfl⟩
  · have hw1 : 1 ≤ volWindow cfg := (hclamp cfg.volatilitySpikeWindowTicks 1 10000 (by omega)).1
    have hwnat : 1 ≤ (volWindow cfg).toNat := by omega
    have : buffer.length - (volWindow cfg).toNat < buffer.length := by omega
    rw [List.get?_eq_getElem?, List.getElem?_eq_getElem this]
    rfl

/-- Witness for C9: the clamp evaluated at `NaN` and at the default window,
and the in-bounds access on a ten-element buffer with the default
configuration (window 10). -/
theorem claim_C9_witness :
    (1 ≤ clampInt .nan 1 10000 ∧ clampInt .nan 1 10000 ≤ 10000) ∧
    (JsNum.isFinite .nan = false ∧ clampInt .nan 1 10000 = 1 ∧ clampInt .nan 0 86400 = 0) ∧
    ((volWindow defaultHeartbeatTriggerConfig).toNat
        ≤ (List.replicate 10 benignTick).length ∧
      ((List.replicate 10 benignTick).get?
        ((List.replicate 10 benignTick).length -
          (volWindow defaultHeartbeatTriggerConfig).toNat)).isSome = true) :=
  ⟨claim_C9_clamping.1 .nan,
    ⟨by decide, (claim_C9_clamping.2.2.1 .nan (by decide)).1,
      (claim_C9_clamping.2.2.1 .nan (by decide)).2⟩,
    ⟨by decide, claim_C9_clamping.2.2.2 defaultHeartbeatTriggerConfig
      (List.replicate 10 benignTick) (by decide)⟩⟩

/-- **C1.**  For a `tighten_stop` action on a long position, validation
accepts exactly when the proposed `newStopPrice` is strictly greater than
the current stop (any value when no stop is set) and strictly less than the
tick's `markPrice`; for a short position the conditions are mirrored; and a
rejected action dispatches no order.  The three concrete conjuncts replay
the repository's validation unit tests (loosened long stop, long stop above
mark, loosened short stop — all rejected). -/
theorem claim_C1_tighten_stop_validation :
    (∀ (tick : PositionTick) (stop : Option JsNum) (minSize p : JsNum),
      (tick.positionSide = .long →
        (validateAction (.tighten_stop p) tick stop minSize = true ↔
          ((∀ s0, stop = some s0 → JsNum.lt s0 p = true) ∧
            JsNum.lt p tick.markPrice = true))) ∧
      (tick.positionSide = .short →
        (validateAction (.tighten_stop p) tick stop minSize = true ↔
          ((∀ s0, stop = some s0 → JsNum.lt p s0 = true) ∧
            JsNum.lt tick.markPrice p = true))) ∧
      (validateAction (.tighten_stop p) tick stop minSize = false →
        dispatchAdvisorAction (.tighten_stop p) tick stop minSize = none)) ∧
    validateAction (.tighten_stop (.num 1800)) testLongTick
      (some (.num 1900)) (.num 0) = false ∧
    validateAction (.tighten_stop (.num 2001)) testLongTick
      (some (.num 1900)) (.num 0) = false ∧
    validateAction (.tighten_stop (.num 2300)) testShortTick
      (some (.num 2200)) (.num 0) = false := by
  refine ⟨fun tick stop minSize p => ⟨fun hside => ?_, fun hside => ?_, fun hrej => ?_⟩,
    by decide, by decide, by decide⟩
  · unfold validateAction
    rw [hside]
    cases stop with
    | none => simp
    | some s0 =>
        simp only [Bool.and_eq_true]
        constructor
        · rintro ⟨h1, h2⟩
          exact ⟨fun x hx => by cases hx; exact h1, h2⟩
        · rintro ⟨h1, h2⟩
          exact ⟨h1 s0 rfl, h2⟩
  · unfold validateAction
    rw [hside]
    cases stop with
    | none => simp
    | some s0 =>
        simp only [Bool.and_eq_true]
        constructor
        · rintro ⟨h1, h2⟩
          exact ⟨fun x hx => by cases hx; exact h1, h2⟩
        · rintro ⟨h1, h2⟩
          exact ⟨h1 s0 rfl, h2⟩
  · unfold dispatchAdvisorAction
    rw [hrej]
    rfl

/-- Witness for C1: the long-side characterization applied at the concrete
inputs of scenario S2 — stop 2050, mark 2110, proposed stop 2080 — accepts,
and a rejected loosening (1700 against stop 1900) dispatches nothing. -/
theorem claim_C1_witness :
    testLongTick.positionSide = .long ∧
    validateAction (.tighten_stop (.num 1950)) testLongTick
      (some (.num 1900)) (.num 0) = true ∧
    dispatchAdvisorAction (.tighten_stop (.num 1700)) testLongTick
      (some (.num 1900)) (.num 0) = none :=
  ⟨rfl,
    ((claim_C1_tighten_stop_validation.1 testLongTick (some (.num 1900))
      (.num 0) (.num 1950)).1 rfl).mpr
      ⟨fun s0 hs0 => by cases hs0; decide, by decide⟩,
    (claim_C1_tighten_stop_validation.1 testLongTick (some (.num 1900))
      (.num 0) (.num 1700)).2.2 (by decide)⟩

/-- **C8.**  The fingerprint `recordPositionHeartbeatDecision` attaches to
the stored artifact for a decision with a given symbol and timestamp is the
string `"heartbeat:"` followed by the symbol, a colon, and the timestamp
(the journal stores records idempotently under this key: the heartbeat
caller supplies `source = "heartbeat"` and the local fingerprint
`symbol + ":" + timestamp`). -/
theorem claim_C8_fingerprint (entry : PositionHeartbeatDecision) :
    (recordPositionHeartbeatDecision entry).key =
      "heartbeat:" ++ entry.symbol ++ ":" ++ entry.timestamp := by
  show "heartbeat" ++ ":" ++ (entry.symbol ++ ":" ++ entry.timestamp) =
    "heartbeat:" ++ entry.symbol ++ ":" ++ entry.timestamp
  rw [show "heartbeat" ++ ":" = "heartbeat:" from rfl, String.append_assoc,
    String.append_assoc, String.append_assoc]
